import Mathlib

/-!
Verification of the message-push reconciliation loop (`logic/graph_task.go`).

The Go source is shallowly embedded below.  Conventions:

* Machine integers are modelled as `Int`/`Nat`; the numeric strings carried by
  the remote API stay `String` and are parsed by executable parsers mirroring
  the `strconv`/`math/big` grammars (decimal literals with optional sign,
  fraction and `e`-exponent; hexadecimal/`Inf` forms of `big.Float.SetString`
  are outside the data domain and not modelled).
* `big.Float` values are modelled as exact rationals (`ℚ`); the 64-bit mantissa
  rounding of `big.Float` is not modelled (it never changes a sign, which is
  all the control flow inspects).
* A Go panic (nil-pointer dereference) is modelled as `none` of an `Option`
  result; an `error` return is an explicit `Option String` component.
* Network I/O is modelled by passing in the sequence of responses the remote
  API would produce, one entry per issued request.
-/

namespace MessagePush

/-- Value of a list of decimal digit characters, most significant first. -/
def digitsVal (cs : List Char) : Nat :=
  cs.foldl (fun a c => a * 10 + (c.toNat - 48)) 0

/-- Parse a nonempty all-digit character list; `none` otherwise. -/
def parseDigits? (cs : List Char) : Option Nat :=
  if cs = [] then none
  else if cs.all Char.isDigit then some (digitsVal cs) else none

/-- Parse an optionally signed decimal integer (the `strconv.Atoi` grammar). -/
def parseSignedDigits? : List Char → Option Int
  | '-' :: cs => (parseDigits? cs).map (fun n => -(n : Int))
  | '+' :: cs => (parseDigits? cs).map (fun n => (n : Int))
  | cs => (parseDigits? cs).map (fun n => (n : Int))

/-- Model of Go `strconv.Atoi` with the error ignored (`n, _ := strconv.Atoi(s)`):
the parsed value, or `0` when the string is not a signed decimal integer. -/
def goAtoi (s : String) : Int :=
  (parseSignedDigits? s.toList).getD 0

/-- Model of `strconv.ParseInt(s, 10, 64)` as used for block timestamps:
signed decimal integer within the int64 range, `none` on any error. -/
def parseInt64? (s : String) : Option Int :=
  match parseSignedDigits? s.toList with
  | none => none
  | some v =>
      if -9223372036854775808 ≤ v ∧ v ≤ 9223372036854775807 then some v else none

/-- Model of `new(big.Float).SetString` / `Parse` on the decimal grammar
`[sign] digits [. digits] [(e|E) [sign] digits]` (at least one mantissa
digit), as an exact rational.  `none` models the parse failing, in which
case the Go caller received a nil `*big.Float`. -/
def parseBigFloat? (s : String) : Option ℚ :=
  let cs := s.toList
  let signed : Bool × List Char :=
    match cs with
    | '-' :: r => (true, r)
    | '+' :: r => (false, r)
    | r => (false, r)
  let neg := signed.1
  let intPart := signed.2.takeWhile Char.isDigit
  let rest1 := signed.2.dropWhile Char.isDigit
  let fracRest : List Char × List Char :=
    match rest1 with
    | '.' :: r => (r.takeWhile Char.isDigit, r.dropWhile Char.isDigit)
    | r => ([], r)
  let fracPart := fracRest.1
  if intPart = [] ∧ fracPart = [] then none
  else if ¬ (intPart.all Char.isDigit ∧ fracPart.all Char.isDigit) then none
  else
    let expOpt : Option Int :=
      match fracRest.2 with
      | [] => some 0
      | 'e' :: r => parseSignedDigits? r
      | 'E' :: r => parseSignedDigits? r
      | _ => none
    match expOpt with
    | none => none
    | some e =>
        let mant : ℚ := (digitsVal (intPart ++ fracPart) : ℚ)
        let v := mant * (10 : ℚ) ^ (e - (fracPart.length : Int))
        some (if neg then -v else v)

/-- Round a rational to the nearest integer, ties to even (the rounding of
`big.Float.Text('f', prec)` at the final digit). -/
def roundHalfEven (q : ℚ) : Int :=
  let f := q.floor
  let r := q - (f : ℚ)
  if r < 1/2 then f
  else if 1/2 < r then f + 1
  else if f % 2 = 0 then f else f + 1

/-- Left-pad a string with `'0'` up to the given length. -/
def padZeros (s : String) (len : Nat) : String :=
  String.mk (List.replicate (len - s.length) '0') ++ s

/-- Model of `big.Float.Text('f', prec)`: fixed-point decimal rendering with
`prec` fractional digits.  The binary rounding of the underlying `big.Float`
(and its signed zero) is idealised by exact rational rounding. -/
def formatRatF (q : ℚ) (prec : Nat) : String :=
  let scaled := roundHalfEven (q * (10 : ℚ) ^ prec)
  let sign := if scaled < 0 then "-" else ""
  let n := scaled.natAbs
  if prec = 0 then sign ++ toString n
  else sign ++ toString (n / 10 ^ prec) ++ "." ++ padZeros (toString (n % 10 ^ prec)) prec

/-- Two-digit zero-padded rendering of a day/month/hour/minute/second field. -/
def pad2 (n : Nat) : String :=
  if n < 10 then "0" ++ toString n else toString n

/-- Civil date (year, month, day) from days since the Unix epoch
(proleptic Gregorian calendar). -/
def civilFromDays (z0 : Int) : Int × Nat × Nat :=
  let z := z0 + 719468
  let era := Int.fdiv z 146097
  let doe := (z - era * 146097).toNat
  let yoe := (doe - doe / 1460 + doe / 36524 - doe / 146096) / 365
  let y := era * 400 + (yoe : Int)
  let doy := doe - (365 * yoe + yoe / 4 - yoe / 100)
  let mp := (5 * doy + 2) / 153
  let d := doy - (153 * mp + 2) / 5 + 1
  let m := if mp < 10 then mp + 3 else mp - 9
  (if m ≤ 2 then y + 1 else y, m, d)

/-- Model of `time.Unix(ts, 0).In(Asia/Shanghai).Format("2006-01-02 15:04:05")`.
Asia/Shanghai is a fixed UTC+8 offset for every timestamp this feed produces. -/
def formatShanghaiTime (ts : Int) : String :=
  let t := ts + 8 * 3600
  let days := Int.fdiv t 86400
  let secs := (Int.emod t 86400).toNat
  let ymd := civilFromDays days
  toString ymd.1 ++ "-" ++ pad2 ymd.2.1 ++ "-" ++ pad2 ymd.2.2 ++ " " ++
    pad2 (secs / 3600) ++ ":" ++ pad2 (secs % 3600 / 60) ++ ":" ++ pad2 (secs % 60)

/-- The `Swap` record of `graph_task.go` (all remote numeric fields are
decimal strings; only `tick` is a native integer). -/
structure Swap where
  id : String
  sender : String
  recipient : String
  amount0 : String
  amount1 : String
  sqrtPriceX96 : String
  liquidity : String
  tick : Int
  blockNumber : String
  blockTimestamp : String
  transactionHash : String
  btcPrice : String
  deriving Repr, DecidableEq

/-- A zero-valued `Swap`, standing for Go's zero value where a default is
needed for total list access. -/
def defaultSwap : Swap :=
  { id := "", sender := "", recipient := "", amount0 := "", amount1 := "",
    sqrtPriceX96 := "", liquidity := "", tick := 0, blockNumber := "",
    blockTimestamp := "", transactionHash := "", btcPrice := "" }

/-- Direction split of `FormatSwap`: amounts and token labels chosen from the
sign of `amount0` (`amount0Float.Sign() < 0` branch of the source). -/
structure SwapParts where
  amountIn : ℚ
  amountOut : ℚ
  tokenIn : String
  tokenOut : String
  deriving Repr, DecidableEq

/-- The branch on `amount0Float.Sign() < 0` in `FormatSwap`. -/
def swapDirection (a0 a1 : ℚ) : SwapParts :=
  if a0 < 0 then ⟨a1, -a0, "WBTC", "UNIBTC"⟩
  else ⟨a0, -a1, "UNIBTC", "WBTC"⟩

/-- Resolution of the USD reference price in `FormatSwap`: parse `btcPrice`
when nonempty and parseable, else the constant 100000. -/
def resolveBtcPrice (s : String) : ℚ :=
  if s = "" then 100000
  else
    match parseBigFloat? s with
    | some p => p
    | none => 100000

/-- The final `fmt.Sprintf("%s  %s %s -> %s %s Vol: $%s", ...)` of
`FormatSwap`, after dividing the three quantities by 1e8. -/
def renderMessage (t : String) (p : SwapParts) (vol : ℚ) : String :=
  t ++ "  " ++ formatRatF (p.amountIn / 100000000) 5 ++ " " ++ p.tokenIn ++
    " -> " ++ formatRatF (p.amountOut / 100000000) 5 ++ " " ++ p.tokenOut ++
    " Vol: $" ++ formatRatF (vol / 100000000) 2

/-- Model of `FormatSwap` (`graph_task.go:290`).  `none` models the Go panic:
the source ignores the `bool` returned by `big.Float.SetString`, so a
malformed `amount0` reaches `amount0Float.Sign()` on a nil pointer, and a
malformed `amount1` reaches `Neg`/`Mul` on a nil pointer.  `some ""` is the
source's explicit "unformattable, skip" result for a bad timestamp. -/
def FormatSwap (s : Swap) : Option String :=
  match parseBigFloat? s.amount0 with
  | none => none
  | some a0 =>
      match parseBigFloat? s.amount1 with
      | none => none
      | some a1 =>
          let parts := swapDirection a0 a1
          let vol := parts.amountIn * resolveBtcPrice s.btcPrice
          match parseInt64? s.blockTimestamp with
          | none => some ""
          | some ts => some (renderMessage (formatShanghaiTime ts) parts vol)

/-- The persisted `Config` document of `graph_task.go` (notification targets,
checkpoint block number, dedup tx-hash list). -/
structure Config where
  barkAPIURLs : List String
  lastBlockNumber : String
  currentTxHashes : List String
  deriving Repr, DecidableEq

/-- The hardcoded default written by `loadConfig` when the config file is
missing (`graph_task.go:49`). -/
def defaultConfig : Config :=
  { barkAPIURLs :=
      ["https://api.day.app/iuizSoSLLvtMTZhhmuWetY/%E4%BA%A4%E6%98%93%E6%8F%90%E9%86%92/"],
    lastBlockNumber := "21612681",
    currentTxHashes :=
      ["0xccce6256453e517062bb4cfb74494a0bdb2fefa793f75d3d31cf041d76bf99fd"] }

/-- Outcome of `os.Open` + `json.Decode` on the config file, the two
library calls `loadConfig` branches on. -/
inductive FileRead where
  | missing
  | corrupt
  | ok (c : Config)
  deriving Repr, DecidableEq

/-- Model of `loadConfig` (`graph_task.go:44`).  Input: the previous global
`configData` and the outcome of reading the file.  Output: the new
`configData` and whether `saveConfig` was called.  On a missing file the
default is installed and saved; on a decode error the function only logs
and returns, leaving `configData` untouched and writing nothing. -/
def loadConfig (prev : Config) : FileRead → Config × Bool
  | .missing => (defaultConfig, true)
  | .corrupt => (prev, false)
  | .ok c => (c, false)

/-- The `contains` helper of `graph_task.go:369`. -/
def contains (slice : List String) (item : String) : Bool :=
  match slice with
  | [] => false
  | s :: rest => if s = item then true else contains rest item

/-- Model of `sendNotification` (`graph_task.go:261`): the list of GET URLs
issued, one per configured Bark base URL, built by raw string concatenation
`baseURL + message + "?call=1"`.  `none` models the panic propagating out of
`FormatSwap`; an empty message issues no GETs and returns nil.  Per-target
HTTP failures are logged and skipped, so the function's `error` result is
nil on every normal path. -/
def sendNotification (urls : List String) (s : Swap) : Option (List String) :=
  match FormatSwap s with
  | none => none
  | some msg =>
      if msg = "" then some []
      else some (urls.map (fun u => u ++ msg ++ "?call=1"))

/-- The per-swap loop of `GraphTask` (`graph_task.go:348-358`): returns
`(newTxHashes, notified swaps, issued GET URLs)` in processing order, or
`none` when a notification panics.  A hash is appended exactly when the swap
was not in the previous dedup list and `sendNotification` returned without
error (which it always does on normal paths). -/
def passLoop (old : List String) (urls : List String) :
    List Swap → Option (List String × List Swap × List String)
  | [] => some ([], [], [])
  | s :: rest =>
      if contains old s.transactionHash then passLoop old urls rest
      else
        match sendNotification urls s with
        | none => none
        | some us =>
            match passLoop old urls rest with
            | none => none
            | some r => some (s.transactionHash :: r.1, s :: r.2.1, us ++ r.2.2)

/-- Trace of one `fetchSwaps` run (`graph_task.go:204`): accumulated swaps,
the propagated error if any, the cursor value used by each issued request,
and whether the loop exited through one of its `break`/`return` statements
(as opposed to exhausting the supplied response sequence). -/
structure FetchTrace where
  swaps : List Swap
  err : Option String
  cursors : List Int
  terminated : Bool
  deriving Repr, DecidableEq

/-- The pagination loop of `fetchSwaps`, driven by the sequence of responses
the remote API produces for the successive requests.  Page size is the
literal 50.  An empty page breaks; a short page is accumulated and breaks;
a full page is accumulated and the cursor becomes the block number of the
page's last element (`strconv.Atoi` with the error ignored); any
request/decode error aborts the whole fetch with `return nil, err`,
discarding everything accumulated so far. -/
def fetchLoop : List (Except String (List Swap)) → Int → FetchTrace
  | [], _ => ⟨[], none, [], false⟩
  | .error e :: _, c => ⟨[], some e, [c], true⟩
  | .ok p :: rest, c =>
      if p.isEmpty then ⟨[], none, [c], true⟩
      else if p.length < 50 then ⟨p, none, [c], true⟩
      else
        match fetchLoop rest (goAtoi (p.getLastD defaultSwap).blockNumber) with
        | ⟨_, some e, cs, t⟩ => ⟨[], some e, c :: cs, t⟩
        | ⟨s, none, cs, t⟩ => ⟨p ++ s, none, c :: cs, t⟩

/-- Model of `fetchSwaps` (`graph_task.go:204`): start the pagination loop at
`strconv.Atoi(lastBlockNumber)` (error ignored) and return the `(swaps, err)`
pair. -/
def fetchSwaps (pages : List (Except String (List Swap))) (lastBlockNumber : String) :
    List Swap × Option String :=
  ((fetchLoop pages (goAtoi lastBlockNumber)).swaps,
    (fetchLoop pages (goAtoi lastBlockNumber)).err)

/-- Observable outcome of one `GraphTask` pass: the global config afterwards,
whether `saveConfig` wrote the state file, the returned error, the swaps for
which `sendNotification` was invoked, and every GET URL issued. -/
structure PassResult where
  config : Config
  persisted : Bool
  error : Option String
  notified : List Swap
  urls : List String
  deriving Repr, DecidableEq

/-- Model of `GraphTask` (`graph_task.go:336`).  `pages` is the sequence of
remote responses for this pass's requests.  On a fetch error the task sleeps
and returns the error with nothing mutated and nothing saved.  On an empty
fetch it returns nil with nothing mutated.  Otherwise it filters against the
current dedup list, notifies, then sets `lastBlockNumber` to the first
fetched swap's block number, replaces `currentTxHashes` with this pass's
list, and calls `saveConfig`.  `none` models a panic escaping the pass
(a nil `big.Float` dereference inside `FormatSwap`). -/
def GraphTask (pages : List (Except String (List Swap))) (cfg : Config) :
    Option PassResult :=
  match (fetchSwaps pages cfg.lastBlockNumber).2 with
  | some e => some ⟨cfg, false, some e, [], []⟩
  | none =>
      if (fetchSwaps pages cfg.lastBlockNumber).1.isEmpty then
        some ⟨cfg, false, none, [], []⟩
      else
        match passLoop cfg.currentTxHashes cfg.barkAPIURLs
            (fetchSwaps pages cfg.lastBlockNumber).1 with
        | none => none
        | some r =>
            some ⟨{ cfg with
                      lastBlockNumber :=
                        ((fetchSwaps pages cfg.lastBlockNumber).1.headD defaultSwap).blockNumber,
                      currentTxHashes := r.1 },
                  true, none, r.2.1, r.2.2⟩

/-- The first page of the response sequence, when the first request succeeds
(used to phrase hypotheses about what the remote API returns for the request
issued at the persisted checkpoint). -/
def firstPage : List (Except String (List Swap)) → List Swap
  | Except.ok p :: _ => p
  | _ => []

/-- Percent-encoding of a message as a URL path segment, following the
spec's words (`target + urlEncode(message) + "?call=1"`); the source itself
contains no encoder, so this is the spec side of the refinement claim.
ASCII unreserved characters pass through, everything else becomes `%XX`. -/
def urlEncodeSpec (s : String) : String :=
  String.join (s.toList.map (fun c =>
    if c.isAlphanum ∨ c = '-' ∨ c = '.' ∨ c = '_' ∨ c = '~' then String.singleton c
    else
      let n := c.toNat
      let hex := fun (k : Nat) => if k < 10 then Char.ofNat (48 + k) else Char.ofNat (55 + k)
      String.mk ['%', hex (n / 16 % 16), hex (n % 16)]))

/-- Concrete swap with a malformed `amount0` (not a decimal literal):
`big.Float.SetString` fails and the source dereferences the nil result. -/
def badAmountSwap : Swap :=
  { defaultSwap with amount0 := "abc", amount1 := "1", blockNumber := "1",
                     blockTimestamp := "0", transactionHash := "0xdead" }

/-- Concrete well-formed swap whose `amount0` is negative (WBTC-in direction). -/
def sampleNegSwap : Swap :=
  { defaultSwap with amount0 := "-1", amount1 := "2", blockTimestamp := "0",
                     btcPrice := "1", blockNumber := "11", transactionHash := "0xneg" }

/-- The message `FormatSwap` produces for `sampleNegSwap`. -/
def sampleNegMsg : String :=
  "1970-01-01 08:00:00  0.00000 WBTC -> 0.00000 UNIBTC Vol: $0.00"

/-- Concrete well-formed swap whose `amount0` is nonnegative, block 12. -/
def swapA : Swap :=
  { defaultSwap with amount0 := "1", amount1 := "-1", blockNumber := "12",
                     blockTimestamp := "0", transactionHash := "0xb" }

/-- Copy of `swapA` at block 11 carrying the already-notified hash `0xa`. -/
def swapB : Swap :=
  { defaultSwap with amount0 := "1", amount1 := "-1", blockNumber := "11",
                     blockTimestamp := "0", transactionHash := "0xa" }

/-- The message `FormatSwap` produces for `swapA`. -/
def wMsgA : String :=
  "1970-01-01 08:00:00  0.00000 UNIBTC -> 0.00000 WBTC Vol: $0.00"

/-- Concrete starting config for pass-level witnesses: checkpoint 10, hash
`0xa` already notified, one Bark target. -/
def wCfg : Config :=
  { barkAPIURLs := ["t/"], lastBlockNumber := "10", currentTxHashes := ["0xa"] }

/-- Concrete remote responses for pass-level witnesses: one short page with a
new swap (block 12) and an already-notified one (block 11). -/
def wPages : List (Except String (List Swap)) := [Except.ok [swapA, swapB]]

/-- The pass result `GraphTask wPages wCfg` evaluates to. -/
def wRes : PassResult :=
  { config := { barkAPIURLs := ["t/"], lastBlockNumber := "12", currentTxHashes := ["0xb"] },
    persisted := true, error := none, notified := [swapA],
    urls := ["t/" ++ wMsgA ++ "?call=1"] }

/-- One full page (50 records) for the pagination witness. -/
def w8Page : List Swap := List.replicate 50 swapA

theorem contains_iff (l : List String) (x : String) : contains l x = true ↔ x ∈ l := by
  induction l with
  | nil => simp [contains]
  | cons a t ih =>
      simp only [contains]
      by_cases h : a = x
      · subst h; simp
      · rw [if_neg h, ih, List.mem_cons]
        constructor
        · exact Or.inr
        · rintro (rfl | hx)
          · exact absurd rfl h
          · exact hx

theorem list_isEmpty_iff {α : Type} (l : List α) : l.isEmpty = true ↔ l = [] := by
  cases l <;> simp [List.isEmpty]

theorem headD_append_ne_nil {α : Type} (p l : List α) (d : α) (h : p ≠ []) :
    (p ++ l).headD d = p.headD d := by
  cases p with
  | nil => exact absurd rfl h
  | cons a t => rfl

theorem headD_mem_ne_nil {α : Type} (p : List α) (d : α) (h : p ≠ []) :
    p.headD d ∈ p := by
  cases p with
  | nil => exact absurd rfl h
  | cons a t => exact List.mem_cons_self a t

theorem passLoop_some_spec (old urls : List String) :
    ∀ (swaps : List Swap) (res : List String × List Swap × List String),
      passLoop old urls swaps = some res →
        res.1 = res.2.1.map (fun s => s.transactionHash) ∧
        ∀ s ∈ res.2.1, s ∈ swaps ∧ s.transactionHash ∉ old := by
  intro swaps
  induction swaps with
  | nil =>
      intro res h
      simp only [passLoop, Option.some.injEq] at h
      subst h
      simp
  | cons a rest ih =>
      intro res h
      simp only [passLoop] at h
      by_cases hc : contains old a.transactionHash = true
      · rw [if_pos hc] at h
        obtain ⟨h1, h2⟩ := ih res h
        exact ⟨h1, fun s hs => ⟨List.mem_cons_of_mem _ (h2 s hs).1, (h2 s hs).2⟩⟩
      · rw [if_neg hc] at h
        cases hsn : sendNotification urls a with
        | none => rw [hsn] at h; exact absurd h (by simp)
        | some us =>
            rw [hsn] at h
            cases hrec : passLoop old urls rest with
            | none => rw [hrec] at h; exact absurd h (by simp)
            | some r =>
                rw [hrec] at h
                simp only [Option.some.injEq] at h
                obtain ⟨h1, h2⟩ := ih r hrec
                subst h
                refine ⟨by simp [h1], ?_⟩
                intro s hs
                rcases List.mem_cons.mp hs with rfl | hs2
                · exact ⟨List.mem_cons_self _ _,
                    fun hmem => hc ((contains_iff old s.transactionHash).mpr hmem)⟩
                · exact ⟨List.mem_cons_of_mem _ (h2 s hs2).1, (h2 s hs2).2⟩

/-- C4: for every swap whose `amount0` parses to a negative decimal,
`FormatSwap` reports tokenIn = "WBTC", tokenOut = "UNIBTC",
amountIn = amount1 and amountOut = -amount0; for every swap whose `amount0`
parses to a value >= 0 it reports tokenIn = "UNIBTC", tokenOut = "WBTC"
with the reverse mapping (amountIn = amount0, amountOut = -amount1). -/
theorem FormatSwap_direction (s : Swap) (q0 q1 : ℚ) (ts : Int)
    (h0 : parseBigFloat? s.amount0 = some q0)
    (h1 : parseBigFloat? s.amount1 = some q1)
    (hts : parseInt64? s.blockTimestamp = some ts) :
    (q0 < 0 → FormatSwap s = some (renderMessage (formatShanghaiTime ts)
        ⟨q1, -q0, "WBTC", "UNIBTC"⟩ (q1 * resolveBtcPrice s.btcPrice))) ∧
    (0 ≤ q0 → FormatSwap s = some (renderMessage (formatShanghaiTime ts)
        ⟨q0, -q1, "UNIBTC", "WBTC"⟩ (q0 * resolveBtcPrice s.btcPrice))) := by
  constructor
  · intro hq
    simp [FormatSwap, h0, h1, hts, swapDirection, hq]
  · intro hq
    simp [FormatSwap, h0, h1, hts, swapDirection, not_lt.mpr hq]

theorem FormatSwap_direction_witness :
    parseBigFloat? sampleNegSwap.amount0 = some (-1) ∧
    parseBigFloat? sampleNegSwap.amount1 = some 2 ∧
    parseInt64? sampleNegSwap.blockTimestamp = some 0 ∧
    ((-1 : ℚ) < 0 → FormatSwap sampleNegSwap =
        some (renderMessage (formatShanghaiTime 0)
          ⟨2, -(-1 : ℚ), "WBTC", "UNIBTC"⟩ (2 * resolveBtcPrice sampleNegSwap.btcPrice))) :=
  ⟨by with_unfolding_all decide, by with_unfolding_all decide, by decide,
    (FormatSwap_direction sampleNegSwap (-1) 2 0 (by with_unfolding_all decide)
      (by with_unfolding_all decide) (by decide)).1⟩

/-- C5 (code bug): a swap whose `amount0` does not parse as a decimal makes
`FormatSwap` dereference the nil `*big.Float` returned by `SetString`
(modelled as `none`), the panic propagates through `sendNotification`, and a
`GraphTask` pass processing such a swap aborts instead of returning
normally — contradicting the spec's "never crash the process / skip this
record". -/
theorem FormatSwap_malformed_amount_panics :
    FormatSwap badAmountSwap = none ∧
    sendNotification defaultConfig.barkAPIURLs badAmountSwap = none ∧
    GraphTask [Except.ok [badAmountSwap]] defaultConfig = none := by
  exact ⟨rfl, rfl, rfl⟩

/-- C6 counterexample: on a decode failure, `loadConfig` does not substitute
the hardcoded default nor persist it; it leaves the previous in-memory
config untouched and writes nothing. -/
theorem loadConfig_decode_failure_cex :
    loadConfig { barkAPIURLs := [], lastBlockNumber := "0", currentTxHashes := [] }
        FileRead.corrupt ≠ (defaultConfig, true) := by
  decide

/-- C6 (amended): `loadConfig` substitutes the hardcoded default state and
immediately persists it on a missing file only; on a decode failure it logs
and returns, leaving the previous config in place and persisting nothing. -/
theorem loadConfig_failure_modes (prev : Config) :
    loadConfig prev FileRead.missing = (defaultConfig, true) ∧
    loadConfig prev FileRead.corrupt = (prev, false) :=
  ⟨rfl, rfl⟩

theorem loadConfig_failure_modes_witness :
    loadConfig wCfg FileRead.missing = (defaultConfig, true) ∧
    loadConfig wCfg FileRead.corrupt = (wCfg, false) :=
  loadConfig_failure_modes wCfg

/-- C9 counterexample: for a concrete formatted message (which contains
spaces), the GET URL the notifier issues is the raw concatenation
`target + message + "?call=1"`, not `target + urlEncode(message) + "?call=1"`
as the claim states. -/
theorem sendNotification_urlencode_cex :
    sendNotification ["t/"] sampleNegSwap ≠
      some (List.map (fun u => u ++ urlEncodeSpec ((FormatSwap sampleNegSwap).getD "") ++ "?call=1")
        ["t/"]) := by
  with_unfolding_all decide

/-- C9 (amended): for every formatted nonempty message and every configured
target URL, the notifier issues a GET to `target + message + "?call=1"`,
concatenating the raw (un-encoded) message as a path segment; any percent
encoding is left to the HTTP client library. -/
theorem sendNotification_raw_url (urls : List String) (s : Swap) (msg : String)
    (hmsg : FormatSwap s = some msg) (hne : msg ≠ "") :
    sendNotification urls s = some (urls.map (fun u => u ++ msg ++ "?call=1")) := by
  simp [sendNotification, hmsg, hne]

theorem sendNotification_raw_url_witness :
    FormatSwap sampleNegSwap = some sampleNegMsg ∧ sampleNegMsg ≠ "" ∧
    sendNotification ["t/"] sampleNegSwap =
      some (List.map (fun u => u ++ sampleNegMsg ++ "?call=1") ["t/"]) :=
  ⟨by with_unfolding_all decide, by decide,
    sendNotification_raw_url ["t/"] sampleNegSwap sampleNegMsg
      (by with_unfolding_all decide) (by decide)⟩

theorem fetchLoop_cons_empty (p : List Swap) (rest : List (Except String (List Swap)))
    (c : Int) (hpe : p.isEmpty = true) :
    fetchLoop (Except.ok p :: rest) c = ⟨[], none, [c], true⟩ := by
  simp only [fetchLoop]
  rw [if_pos hpe]

theorem fetchLoop_cons_short (p : List Swap) (rest : List (Except String (List Swap)))
    (c : Int) (hpe : ¬(p.isEmpty = true)) (hs : p.length < 50) :
    fetchLoop (Except.ok p :: rest) c = ⟨p, none, [c], true⟩ := by
  simp only [fetchLoop]
  rw [if_neg hpe, if_pos hs]

theorem fetchLoop_cons_full (p : List Swap) (rest : List (Except String (List Swap)))
    (c : Int) (hpe : ¬(p.isEmpty = true)) (hns : ¬(p.length < 50)) :
    fetchLoop (Except.ok p :: rest) c =
      match fetchLoop rest (goAtoi (p.getLastD defaultSwap).blockNumber) with
      | ⟨_, some e, cs, t⟩ => ⟨[], some e, c :: cs, t⟩
      | ⟨s, none, cs, t⟩ => ⟨p ++ s, none, c :: cs, t⟩ := by
  simp only [fetchLoop]
  rw [if_neg hpe, if_neg hns]

theorem fetchLoop_err_swaps (pages : List (Except String (List Swap))) (c : Int) (e : String)
    (h : (fetchLoop pages c).err = some e) : (fetchLoop pages c).swaps = [] := by
  cases pages with
  | nil => simp [fetchLoop] at h
  | cons pg rest =>
      cases pg with
      | error e2 => rfl
      | ok p =>
          by_cases h1 : p.isEmpty = true
          · rw [fetchLoop_cons_empty p rest c h1] at h
            simp at h
          · by_cases h2 : p.length < 50
            · rw [fetchLoop_cons_short p rest c h1 h2] at h
              simp at h
            · cases hrec : fetchLoop rest (goAtoi (p.getLastD defaultSwap).blockNumber) with
              | mk s e2 cs t =>
                  cases e2 with
                  | some e3 =>
                      rw [fetchLoop_cons_full p rest c h1 h2, hrec]
                  | none =>
                      rw [fetchLoop_cons_full p rest c h1 h2, hrec] at h
                      exact Option.noConfusion (show (none : Option String) = some e from h)

theorem fetchLoop_head (pages : List (Except String (List Swap))) (c : Int)
    (h1 : (fetchLoop pages c).err = none)
    (h2 : (fetchLoop pages c).swaps ≠ []) :
    ∃ p rest, pages = Except.ok p :: rest ∧
      (fetchLoop pages c).swaps.headD defaultSwap ∈ p := by
  cases pages with
  | nil => exact absurd rfl h2
  | cons pg rest =>
      cases pg with
      | error e => exact absurd h1 (by simp [fetchLoop])
      | ok p =>
          refine ⟨p, rest, rfl, ?_⟩
          by_cases hemp : p.isEmpty = true
          · rw [fetchLoop_cons_empty p rest c hemp] at h2
            exact absurd rfl h2
          · have hpne : p ≠ [] := fun hcon => hemp (by rw [list_isEmpty_iff]; exact hcon)
            by_cases hshort : p.length < 50
            · rw [fetchLoop_cons_short p rest c hemp hshort]
              exact headD_mem_ne_nil p defaultSwap hpne
            · cases hrec : fetchLoop rest (goAtoi (p.getLastD defaultSwap).blockNumber) with
              | mk s e2 cs t =>
                  cases e2 with
                  | some e3 =>
                      rw [fetchLoop_cons_full p rest c hemp hshort, hrec] at h1
                      exact Option.noConfusion (show some e3 = (none : Option String) from h1)
                  | none =>
                      rw [fetchLoop_cons_full p rest c hemp hshort, hrec]
                      show (p ++ s).headD defaultSwap ∈ p
                      rw [headD_append_ne_nil p s defaultSwap hpne]
                      exact headD_mem_ne_nil p defaultSwap hpne

theorem fetchLoop_stops_at_short_page : ∀ (fullPs : List (List Swap)) (bad : List Swap)
    (rest : List (Except String (List Swap))) (c : Int),
    (∀ p ∈ fullPs, p.length = 50) → bad.length < 50 →
    fetchLoop (fullPs.map Except.ok ++ Except.ok bad :: rest) c =
      ⟨fullPs.flatten ++ bad, none,
        c :: fullPs.map (fun p => goAtoi (p.getLastD defaultSwap).blockNumber), true⟩ := by
  intro fullPs
  induction fullPs with
  | nil =>
      intro bad rest c _ hbad
      by_cases hb : bad.isEmpty = true
      · have hbe : bad = [] := (list_isEmpty_iff bad).mp hb
        subst hbe
        simp [fetchLoop]
      · simp [fetchLoop, hb, hbad]
  | cons p ps ih =>
      intro bad rest c hfull hbad
      have hp : p.length = 50 := hfull p (List.mem_cons_self p ps)
      have hps : ∀ q ∈ ps, q.length = 50 := fun q hq => hfull q (List.mem_cons_of_mem p hq)
      have hpe : ¬(p.isEmpty = true) := fun hcon => by
        rw [(list_isEmpty_iff p).mp hcon] at hp
        simp at hp
      have hns : ¬(p.length < 50) := by rw [hp]; exact lt_irrefl 50
      have step : fetchLoop (Except.ok p :: (ps.map Except.ok ++ Except.ok bad :: rest)) c =
          ⟨p ++ (ps.flatten ++ bad), none,
            c :: (goAtoi (p.getLastD defaultSwap).blockNumber ::
              ps.map (fun q => goAtoi (q.getLastD defaultSwap).blockNumber)), true⟩ := by
        rw [fetchLoop_cons_full p (ps.map Except.ok ++ Except.ok bad :: rest) c hpe hns,
          ih bad rest (goAtoi (p.getLastD defaultSwap).blockNumber) hps hbad]
      rw [List.map_cons, List.cons_append, step]
      simp [List.append_assoc]

theorem fetchLoop_all_full : ∀ (fullPs : List (List Swap)) (c : Int),
    (∀ p ∈ fullPs, p.length = 50) →
    (fetchLoop (fullPs.map Except.ok) c).err = none ∧
    (fetchLoop (fullPs.map Except.ok) c).terminated = false := by
  intro fullPs
  induction fullPs with
  | nil => intro c _; exact ⟨rfl, rfl⟩
  | cons p ps ih =>
      intro c hfull
      have hp : p.length = 50 := hfull p (List.mem_cons_self p ps)
      have hps : ∀ q ∈ ps, q.length = 50 := fun q hq => hfull q (List.mem_cons_of_mem p hq)
      have hpe : ¬(p.isEmpty = true) := fun hcon => by
        rw [(list_isEmpty_iff p).mp hcon] at hp
        simp at hp
      have hns : ¬(p.length < 50) := by rw [hp]; exact lt_irrefl 50
      obtain ⟨ihe, iht⟩ := ih (goAtoi (p.getLastD defaultSwap).blockNumber) hps
      cases hrec : fetchLoop (ps.map Except.ok) (goAtoi (p.getLastD defaultSwap).blockNumber) with
      | mk s e cs t =>
          rw [hrec] at ihe iht
          have he : e = none := ihe
          have ht : t = false := iht
          subst he
          subst ht
          have step : fetchLoop (Except.ok p :: ps.map Except.ok) c =
              ⟨p ++ s, none, c :: cs, false⟩ := by
            rw [fetchLoop_cons_full p (ps.map Except.ok) c hpe hns, hrec]
          rw [List.map_cons, step]
          exact ⟨rfl, rfl⟩

/-- C8: for every response sequence made of some number of full pages
(exactly 50 records each) followed by a page that is empty or shorter than
50, the pagination loop of `fetchSwaps` accumulates exactly those pages and
stops at the first empty/short page regardless of any further available
responses, and the cursor used by each request after the first is the block
number of the last element of the previous page; while every page is full
the loop does not terminate. -/
theorem fetchSwaps_pagination (fullPs : List (List Swap)) (bad : List Swap)
    (rest : List (Except String (List Swap))) (c : Int)
    (hfull : ∀ p ∈ fullPs, p.length = 50) (hbad : bad.length < 50) :
    fetchLoop (fullPs.map Except.ok ++ Except.ok bad :: rest) c =
      ⟨fullPs.flatten ++ bad, none,
        c :: fullPs.map (fun p => goAtoi (p.getLastD defaultSwap).blockNumber), true⟩ ∧
    (fetchLoop (fullPs.map Except.ok) c).terminated = false :=
  ⟨fetchLoop_stops_at_short_page fullPs bad rest c hfull hbad,
    (fetchLoop_all_full fullPs c hfull).2⟩

theorem fetchSwaps_pagination_witness :
    (∀ p ∈ [w8Page], p.length = 50) ∧ ([] : List Swap).length < 50 ∧
    (fetchLoop ([w8Page].map Except.ok ++ Except.ok [] :: [Except.ok [swapA]]) 0 =
        ⟨[w8Page].flatten ++ [], none,
          0 :: [w8Page].map (fun p => goAtoi (p.getLastD defaultSwap).blockNumber), true⟩ ∧
      (fetchLoop ([w8Page].map Except.ok) 0).terminated = false) :=
  ⟨by decide, by decide,
    fetchSwaps_pagination [w8Page] [] [Except.ok [swapA]] 0 (by decide) (by decide)⟩

/-- C7: when the fetch of a reconciliation pass returns an error, `GraphTask`
returns that error without mutating the config and without persisting, so
the next tick retries from the same checkpoint; and the fetch itself returns
no partial result together with an error (the accumulated pages are
discarded, `return nil, err`). -/
theorem GraphTask_fetch_error_no_mutation (pages : List (Except String (List Swap)))
    (cfg : Config) (e : String)
    (h : (fetchSwaps pages cfg.lastBlockNumber).2 = some e) :
    GraphTask pages cfg = some ⟨cfg, false, some e, [], []⟩ ∧
    (fetchSwaps pages cfg.lastBlockNumber).1 = [] := by
  have h2 : (fetchLoop pages (goAtoi cfg.lastBlockNumber)).err = some e := h
  constructor
  · unfold GraphTask
    rw [h]
  · exact fetchLoop_err_swaps pages (goAtoi cfg.lastBlockNumber) e h2

theorem GraphTask_fetch_error_witness :
    (fetchSwaps [Except.error "boom"] defaultConfig.lastBlockNumber).2 = some "boom" ∧
    (GraphTask [Except.error "boom"] defaultConfig =
        some ⟨defaultConfig, false, some "boom", [], []⟩ ∧
      (fetchSwaps [Except.error "boom"] defaultConfig.lastBlockNumber).1 = []) :=
  ⟨rfl, GraphTask_fetch_error_no_mutation [Except.error "boom"] defaultConfig "boom" rfl⟩

/-- C1: at the end of every reconciliation pass whose fetch succeeded with at
least one swap, the pass persisted (`saveConfig` ran), `lastBlockNumber` is
the block number of the first (newest) element of the fetched sequence, the
dedup list is exactly the transaction hashes of the swaps notified during
this pass — every one of them drawn from this pass's fetch and none carried
over from the previous set — and the notification targets are untouched. -/
theorem GraphTask_checkpoint (pages : List (Except String (List Swap))) (cfg : Config)
    (r : PassResult) (hrun : GraphTask pages cfg = some r)
    (herr : (fetchSwaps pages cfg.lastBlockNumber).2 = none)
    (hne : (fetchSwaps pages cfg.lastBlockNumber).1 ≠ []) :
    r.persisted = true ∧
    r.config.lastBlockNumber =
      ((fetchSwaps pages cfg.lastBlockNumber).1.headD defaultSwap).blockNumber ∧
    r.config.currentTxHashes = r.notified.map (fun s => s.transactionHash) ∧
    (∀ h ∈ r.config.currentTxHashes,
        h ∈ (fetchSwaps pages cfg.lastBlockNumber).1.map (fun s => s.transactionHash) ∧
        h ∉ cfg.currentTxHashes) ∧
    r.config.barkAPIURLs = cfg.barkAPIURLs := by
  unfold GraphTask at hrun
  split at hrun
  · rename_i e heq
    rw [herr] at heq
    exact Option.noConfusion heq
  · split at hrun
    · rename_i hemp
      exact absurd ((list_isEmpty_iff _).mp hemp) hne
    · split at hrun
      · exact Option.noConfusion hrun
      · rename_i pr hpl
        have hr := Option.some.inj hrun
        subst hr
        obtain ⟨hmap, hall⟩ := passLoop_some_spec cfg.currentTxHashes cfg.barkAPIURLs
          (fetchSwaps pages cfg.lastBlockNumber).1 pr hpl
        refine ⟨rfl, rfl, hmap, ?_, rfl⟩
        intro h hh
        rw [show ({ cfg with
              lastBlockNumber :=
                ((fetchSwaps pages cfg.lastBlockNumber).1.headD defaultSwap).blockNumber,
              currentTxHashes := pr.1 } : Config).currentTxHashes = pr.1 from rfl,
          hmap] at hh
        obtain ⟨s, hs, hfs⟩ := List.mem_map.mp hh
        obtain ⟨hsin, hnot⟩ := hall s hs
        subst hfs
        exact ⟨List.mem_map_of_mem _ hsin, hnot⟩

theorem GraphTask_checkpoint_witness :
    GraphTask wPages wCfg = some wRes ∧
    (fetchSwaps wPages wCfg.lastBlockNumber).2 = none ∧
    (fetchSwaps wPages wCfg.lastBlockNumber).1 ≠ [] ∧
    wRes.persisted = true ∧
    wRes.config.lastBlockNumber =
      ((fetchSwaps wPages wCfg.lastBlockNumber).1.headD defaultSwap).blockNumber ∧
    wRes.config.currentTxHashes = wRes.notified.map (fun s => s.transactionHash) := by
  have hGT : GraphTask wPages wCfg = some wRes := by with_unfolding_all decide
  have hE : (fetchSwaps wPages wCfg.lastBlockNumber).2 = none := by decide
  have hNE : (fetchSwaps wPages wCfg.lastBlockNumber).1 ≠ [] := by decide
  obtain ⟨c1, c2, c3, _, _⟩ := GraphTask_checkpoint wPages wCfg wRes hGT hE hNE
  exact ⟨hGT, hE, hNE, c1, c2, c3⟩

/-- C2: a reconciliation pass whose fetch yields no swaps newer than the
checkpoint (the remote API honours the `blockNumber_gt` filter of the query
issued at the persisted checkpoint, and nothing newer exists) leaves the
persisted state exactly as it was and persists nothing — so the state after
running a second pass with no new remote data equals the state after the
first. -/
theorem GraphTask_idempotent (cfg : Config) (p : List Swap)
    (rest : List (Except String (List Swap)))
    (hgt : ∀ s ∈ p, goAtoi cfg.lastBlockNumber < goAtoi s.blockNumber)
    (hle : ∀ s ∈ p, goAtoi s.blockNumber ≤ goAtoi cfg.lastBlockNumber) :
    GraphTask (Except.ok p :: rest) cfg = some ⟨cfg, false, none, [], []⟩ := by
  have hp : p = [] := by
    cases p with
    | nil => rfl
    | cons a as =>
        exact absurd (hgt a (List.mem_cons_self a as))
          (not_lt.mpr (hle a (List.mem_cons_self a as)))
  subst hp
  rfl

theorem GraphTask_idempotent_witness :
    (∀ s ∈ ([] : List Swap), goAtoi defaultConfig.lastBlockNumber < goAtoi s.blockNumber) ∧
    (∀ s ∈ ([] : List Swap), goAtoi s.blockNumber ≤ goAtoi defaultConfig.lastBlockNumber) ∧
    GraphTask [Except.ok []] defaultConfig = some ⟨defaultConfig, false, none, [], []⟩ := by
  have h1 : ∀ s ∈ ([] : List Swap),
      goAtoi defaultConfig.lastBlockNumber < goAtoi s.blockNumber := by simp
  have h2 : ∀ s ∈ ([] : List Swap),
      goAtoi s.blockNumber ≤ goAtoi defaultConfig.lastBlockNumber := by simp
  exact ⟨h1, h2, GraphTask_idempotent defaultConfig [] [] h1 h2⟩

/-- C3: a transaction hash present in the persisted dedup list at the start
of a pass is never re-notified during that pass: no swap handed to
`sendNotification` carries such a hash, even when the remote API returns
that swap again. -/
theorem GraphTask_dedup (pages : List (Except String (List Swap))) (cfg : Config)
    (r : PassResult) (hrun : GraphTask pages cfg = some r) :
    ∀ h ∈ cfg.currentTxHashes, ∀ s ∈ r.notified, s.transactionHash ≠ h := by
  unfold GraphTask at hrun
  split at hrun
  · have hr := Option.some.inj hrun
    subst hr
    intro h hh s hs
    exact absurd hs (List.not_mem_nil s)
  · split at hrun
    · have hr := Option.some.inj hrun
      subst hr
      intro h hh s hs
      exact absurd hs (List.not_mem_nil s)
    · split at hrun
      · exact Option.noConfusion hrun
      · rename_i pr hpl
        have hr := Option.some.inj hrun
        subst hr
        intro h hh s hs
        have hspec := (passLoop_some_spec cfg.currentTxHashes cfg.barkAPIURLs
          (fetchSwaps pages cfg.lastBlockNumber).1 pr hpl).2 s hs
        intro hcon
        exact hspec.2 (by rw [hcon]; exact hh)

theorem GraphTask_dedup_witness :
    GraphTask wPages wCfg = some wRes ∧ "0xa" ∈ wCfg.currentTxHashes ∧
    swapA ∈ wRes.notified ∧ swapA.transactionHash ≠ "0xa" := by
  have hGT : GraphTask wPages wCfg = some wRes := by with_unfolding_all decide
  exact ⟨hGT, by decide, by decide,
    GraphTask_dedup wPages wCfg wRes hGT "0xa" (by decide) swapA (by decide)⟩

/-- C10: across a successful pass the persisted checkpoint never decreases:
under the hypothesis that the remote API only returns swaps with block
number strictly greater than the requested cursor (here instantiated at the
first request, issued at the persisted checkpoint), the numeric value of
`lastBlockNumber` after the pass is at least its value before. -/
theorem GraphTask_lastBlock_monotone (pages : List (Except String (List Swap)))
    (cfg : Config) (r : PassResult) (hrun : GraphTask pages cfg = some r)
    (hapi : ∀ s ∈ firstPage pages, goAtoi cfg.lastBlockNumber < goAtoi s.blockNumber) :
    goAtoi cfg.lastBlockNumber ≤ goAtoi r.config.lastBlockNumber := by
  unfold GraphTask at hrun
  split at hrun
  · have hr := Option.some.inj hrun
    subst hr
    exact le_refl _
  · rename_i heq
    split at hrun
    · have hr := Option.some.inj hrun
      subst hr
      exact le_refl _
    · rename_i hemp
      split at hrun
      · exact Option.noConfusion hrun
      · rename_i pr hpl
        have hr := Option.some.inj hrun
        subst hr
        have herr : (fetchLoop pages (goAtoi cfg.lastBlockNumber)).err = none := heq
        have hne : (fetchLoop pages (goAtoi cfg.lastBlockNumber)).swaps ≠ [] := fun hcon =>
          hemp ((list_isEmpty_iff _).mpr hcon)
        obtain ⟨p, rest2, hpag, hmem⟩ :=
          fetchLoop_head pages (goAtoi cfg.lastBlockNumber) herr hne
        subst hpag
        exact le_of_lt (hapi _ hmem)

theorem GraphTask_lastBlock_monotone_witness :
    GraphTask wPages wCfg = some wRes ∧
    (∀ s ∈ firstPage wPages, goAtoi wCfg.lastBlockNumber < goAtoi s.blockNumber) ∧
    goAtoi wCfg.lastBlockNumber ≤ goAtoi wRes.config.lastBlockNumber := by
  have hGT : GraphTask wPages wCfg = some wRes := by with_unfolding_all decide
  have hapi : ∀ s ∈ firstPage wPages,
      goAtoi wCfg.lastBlockNumber < goAtoi s.blockNumber := by decide
  exact ⟨hGT, hapi, GraphTask_lastBlock_monotone wPages wCfg wRes hGT hapi⟩

end MessagePush
